import Mathlib

/-!
Shallow embedding of `src/config.rs` of the trojan-rs repository: session
configuration (`Opts`), backend-endpoint resolution (`Opts::setup`), the
SHA-224 password digest store (`Opts::digest_pass` / `Opts::check_pass`)
and the DNS answer cache (`Opts::update_dns` / `Opts::query_dns`).

Modelling conventions:
- `std::time::Instant` is modelled as a `Nat` tick count; every operation
  that calls `Instant::now()` in Rust takes the observed instant `now`
  as an explicit argument (`Duration` is likewise a `Nat`).
- `std::collections::HashMap<String, DnsEntry>` is modelled as an
  association list with at most one binding per key: `insert` erases any
  previous binding of the key and conses the new one, exactly the
  observable behaviour of `HashMap::insert`; `remove` erases the binding.
- External library calls that are not code of this repository
  (`str::parse::<SocketAddr>`, `Resolver::from_system_conf`,
  `Resolver::lookup_ip`) are oracles supplied through an `Env` record;
  `unwrap()` on their failures is a fatal abort.
- A Rust `panic!`/failed `unwrap()` is the `fatal` outcome of `setup`;
  the `while` loop in proxy-mode resolution is given fuel, and exhausting
  every fuel is the `diverge` outcome.
- `Sha224` of the rust-crypto crate is embedded concretely (FIPS 180-4
  SHA-224 over the UTF-8 bytes of the password, hex-encoded lowercase,
  as `result_str` produces); the embedding is validated below against
  the standard test vectors.
-/

namespace TrojanRs

/-- Rust `std::net::IpAddr`: either a v4 or a v6 address; the numeric payload
is the address value, which the config logic never inspects beyond the
family. -/
inductive IpAddr where
  | v4 (addr : Nat) : IpAddr
  | v6 (addr : Nat) : IpAddr
deriving DecidableEq, Repr

/-- Rust `IpAddr::is_ipv4`. -/
def IpAddr.is_ipv4 : IpAddr → Bool
  | .v4 _ => true
  | .v6 _ => false

/-- Rust `std::net::SocketAddr`: an IP address together with a port. -/
structure SocketAddr where
  ip : IpAddr
  port : Nat
deriving DecidableEq, Repr

/-- Rust `SocketAddr::is_ipv4`. -/
def SocketAddr.is_ipv4 (s : SocketAddr) : Bool := s.ip.is_ipv4

/-- Rust `SocketAddr::new(ip, port)`. -/
def SocketAddr.new (ip : IpAddr) (port : Nat) : SocketAddr := ⟨ip, port⟩

/-- Rust `DnsEntry` from config.rs: a resolved address and its expiry instant. -/
structure DnsEntry where
  address : IpAddr
  expired_time : Nat
deriving DecidableEq, Repr

/-- The association-list model of `HashMap<String, DnsEntry>`. -/
abbrev DnsCache := List (String × DnsEntry)

/-- Rust `HashMap::get`. -/
def cacheGet (cache : DnsCache) (domain : String) : Option DnsEntry :=
  (cache.find? (fun p => p.fst == domain)).map (·.snd)

/-- Rust `HashMap::remove` (all bindings of the key; a well-formed map has at
most one). -/
def cacheRemove (cache : DnsCache) (domain : String) : DnsCache :=
  cache.filter (fun p => p.fst != domain)

/-- Rust `HashMap::insert`: the new binding replaces any previous binding of
the same key. -/
def cacheInsert (cache : DnsCache) (domain : String) (e : DnsEntry) : DnsCache :=
  (domain, e) :: cacheRemove cache domain

/-- Number of bindings a cache holds for a given domain. -/
def countKey (cache : DnsCache) (domain : String) : Nat :=
  (cache.filter (fun p => p.fst == domain)).length

/-- The `Opts` structure of config.rs (command-line fields plus the
`clap(skip)` fields populated by `setup`). -/
structure Opts where
  cert : Option String
  key : Option String
  log_file : Option String
  local_addr : String
  remote_addr : String
  password : List String
  log_level : Nat
  dns_cache_time : Nat
  marker : Nat
  mode : String
  hostname : Option String
  idle_timeout : Nat
  dns_cache_duration : Nat
  sha_pass : List String
  pass_len : Nat
  back_addr : Option SocketAddr
  dns_cache : DnsCache
  udp_header_len : Nat
  empty_addr : Option SocketAddr
  idle_duration : Nat
deriving Repr

/-- Rust `Opts::update_dns`: insert `domain ↦ (address, now + dns_cache_duration)`,
replacing any previous entry (`now` is the instant observed by the call's
`Instant::now()`). -/
def update_dns (o : Opts) (now : Nat) (domain : String) (address : IpAddr) : Opts :=
  { o with dns_cache :=
      cacheInsert o.dns_cache domain ⟨address, now + o.dns_cache_duration⟩ }

/-- Rust `Opts::query_dns`: return the cached address when the entry's expiry is
still in the future (`expired_time > now`), otherwise remove the expired
entry; the returned pair is (result, updated state). -/
def query_dns (o : Opts) (now : Nat) (domain : String) : Option IpAddr × Opts :=
  match cacheGet o.dns_cache domain with
  | some entry =>
    if entry.expired_time > now then (some entry.address, o)
    else (none, { o with dns_cache := cacheRemove o.dns_cache domain })
  | none => (none, o)

/-! ### SHA-224 (FIPS 180-4), the digest used by `Opts::digest_pass`

`crypto::sha2::Sha224` with `result_str()` computes the SHA-224 digest of
the password's UTF-8 bytes and renders it as lowercase hex. 32-bit words
are modelled as `Nat` reduced mod `2^32`. -/

/-- Truncation to a 32-bit word. -/
def w32 (n : Nat) : Nat := n % 4294967296

/-- Modular 32-bit addition. -/
def add32 (a b : Nat) : Nat := (a + b) % 4294967296

/-- Right rotation of a 32-bit word. -/
def rotr (n x : Nat) : Nat := w32 ((x >>> n) ||| (x <<< (32 - n)))

/-- SHA-256 `Ch(e,f,g)` (the complement of `e` is `e XOR 0xffffffff`). -/
def ch (e f g : Nat) : Nat := (e &&& f) ^^^ ((e ^^^ 4294967295) &&& g)

/-- SHA-256 `Maj(a,b,c)`. -/
def maj (a b c : Nat) : Nat := (a &&& b) ^^^ (a &&& c) ^^^ (b &&& c)

/-- SHA-256 `Σ0`. -/
def bigSigma0 (x : Nat) : Nat := rotr 2 x ^^^ rotr 13 x ^^^ rotr 22 x

/-- SHA-256 `Σ1`. -/
def bigSigma1 (x : Nat) : Nat := rotr 6 x ^^^ rotr 11 x ^^^ rotr 25 x

/-- SHA-256 `σ0`. -/
def smallSigma0 (x : Nat) : Nat := rotr 7 x ^^^ rotr 18 x ^^^ (x >>> 3)

/-- SHA-256 `σ1`. -/
def smallSigma1 (x : Nat) : Nat := rotr 17 x ^^^ rotr 19 x ^^^ (x >>> 10)

/-- The 64 SHA-256 round constants. -/
def shaK : List Nat :=
  [1116352408, 1899447441, 3049323471, 3921009573, 961987163, 1508970993,
   2453635748, 2870763221, 3624381080, 310598401, 607225278, 1426881987,
   1925078388, 2162078206, 2614888103, 3248222580, 3835390401, 4022224774,
   264347078, 604807628, 770255983, 1249150122, 1555081692, 1996064986,
   2554220882, 2821834349, 2952996808, 3210313671, 3336571891, 3584528711,
   113926993, 338241895, 666307205, 773529912, 1294757372, 1396182291,
   1695183700, 1986661051, 2177026350, 2456956037, 2730485921, 2820302411,
   3259730800, 3345764771, 3516065817, 3600352804, 4094571909, 275423344,
   430227734, 506948616, 659060556, 883997877, 958139571, 1322822218,
   1537002063, 1747873779, 1955562222, 2024104815, 2227730452, 2361852424,
   2428436474, 2756734187, 3204031479, 3329325298]

/-- The SHA-224 initial hash value (eight 32-bit words). -/
def sha224IV : List Nat :=
  [3238371032, 914150663, 812702999, 4144912697,
   4290775857, 1750603025, 1694076839, 3204075428]

/-- UTF-8 encoding of one character (what `str::as_bytes` exposes per
code point). -/
def encodeUtf8Char (c : Char) : List Nat :=
  let n := c.toNat
  if n < 0x80 then [n]
  else if n < 0x800 then
    [0xc0 ||| (n >>> 6), 0x80 ||| (n &&& 0x3f)]
  else if n < 0x10000 then
    [0xe0 ||| (n >>> 12), 0x80 ||| ((n >>> 6) &&& 0x3f), 0x80 ||| (n &&& 0x3f)]
  else
    [0xf0 ||| (n >>> 18), 0x80 ||| ((n >>> 12) &&& 0x3f),
     0x80 ||| ((n >>> 6) &&& 0x3f), 0x80 ||| (n &&& 0x3f)]

/-- UTF-8 bytes of a string (`pass.as_bytes()`). -/
def utf8Bytes (s : String) : List Nat :=
  s.data.foldr (fun c acc => encodeUtf8Char c ++ acc) []

/-- Big-endian byte decomposition: `toBytesBE k n` is the low `k` bytes of
`n`, most significant first. -/
def toBytesBE : Nat → Nat → List Nat
  | 0, _ => []
  | k + 1, n => toBytesBE k (n >>> 8) ++ [n % 256]

/-- SHA padding: append `0x80`, zero bytes up to 56 mod 64, then the
64-bit big-endian bit length. -/
def padMessage (msg : List Nat) : List Nat :=
  let len := msg.length
  msg ++ [0x80] ++ List.replicate ((119 - len % 64) % 64) 0 ++ toBytesBE 8 (len * 8)

/-- Pack bytes into big-endian 32-bit words. -/
def bytesToWords : List Nat → List Nat
  | a :: b :: c :: d :: rest => (((a * 256 + b) * 256 + c) * 256 + d) :: bytesToWords rest
  | _ => []

/-- One message-schedule extension step; `rws` is the schedule so far,
most recent word first, so `rws[1] = w[t-2]`, `rws[6] = w[t-7]`,
`rws[14] = w[t-15]`, `rws[15] = w[t-16]`. -/
def scheduleStep (rws : List Nat) : Nat :=
  (smallSigma1 (rws.getD 1 0) + rws.getD 6 0 +
    smallSigma0 (rws.getD 14 0) + rws.getD 15 0) % 4294967296

/-- Iterate the schedule extension. -/
def scheduleRounds : Nat → List Nat → List Nat
  | 0, rws => rws
  | n + 1, rws => scheduleRounds n (scheduleStep rws :: rws)

/-- The full 64-word message schedule of one block. -/
def messageSchedule (block16 : List Nat) : List Nat :=
  (scheduleRounds 48 block16.reverse).reverse

/-- One compression round on the state `[a,b,c,d,e,f,g,h]`; `kw` is
`K_t + W_t` (mod 2^32). -/
def compressStep : List Nat → Nat → List Nat
  | [a, b, c, d, e, f, g, h], kw =>
    let t1 := (h + bigSigma1 e + ch e f g + kw) % 4294967296
    let t2 := (bigSigma0 a + maj a b c) % 4294967296
    [(t1 + t2) % 4294967296, a, b, c, (d + t1) % 4294967296, e, f, g]
  | st, _ => st

/-- Compress one 64-byte block into the running hash value. -/
def processBlock (hs : List Nat) (block : List Nat) : List Nat :=
  let w := messageSchedule (bytesToWords block)
  let kws := List.zipWith add32 shaK w
  let st := kws.foldl compressStep hs
  List.zipWith add32 hs st

/-- Split into 64-byte chunks (the first argument is fuel, instantiated
with the list length so the recursion is structural). -/
def chunksAux : Nat → List Nat → List (List Nat)
  | 0, _ => []
  | _ + 1, [] => []
  | n + 1, x :: l => (x :: l).take 64 :: chunksAux n ((x :: l).drop 64)

/-- The SHA-224 digest (28 bytes) of a byte message. -/
def sha224Bytes (msg : List Nat) : List Nat :=
  let padded := padMessage msg
  let final := (chunksAux padded.length padded).foldl processBlock sha224IV
  (final.take 7).foldr (fun wi acc => toBytesBE 4 wi ++ acc) []

/-- Lowercase hex digit. -/
def hexDigit (n : Nat) : Char :=
  if n < 10 then Char.ofNat (48 + n) else Char.ofNat (87 + n)

/-- Two lowercase hex characters of one byte. -/
def byteToHex (b : Nat) : List Char := [hexDigit (b / 16), hexDigit (b % 16)]

/-- Lowercase hex string of a byte list (`result_str()`). -/
def bytesToHex (bs : List Nat) : String :=
  ⟨bs.foldr (fun b acc => byteToHex b ++ acc) []⟩

/-- Rust `Sha224::result_str()` after feeding the UTF-8 bytes of `s`. -/
def sha224_hex (s : String) : String := bytesToHex (sha224Bytes (utf8Bytes s))

/-! ### `Opts` methods -/

/-- Rust `Opts::digest_pass`: clear `sha_pass`, push the SHA-224 hex digest of
every password in order, and set `pass_len` to each digest's length as it
is pushed (so `pass_len` ends as the last digest's length, or keeps its
old value when the password list is empty). -/
def digest_pass (o : Opts) : Opts :=
  let digests := o.password.map sha224_hex
  { o with
      sha_pass := digests,
      pass_len := digests.foldl (fun _ d => d.length) o.pass_len }

/-- The loop of `Opts::check_pass`: scan `sha_pass` by index, returning
`password[i]` at the first `i` with `sha_pass[i] == pass`. Indexing past
the end of `password` (impossible after `digest_pass`, which makes both
lists the same length) is modelled as a miss. -/
def check_pass_aux : List String → List String → String → Option String
  | [], _, _ => none
  | _ :: _, [], _ => none
  | s :: ss, p :: ps, pass =>
    if s == pass then some p else check_pass_aux ss ps pass

/-- Rust `Opts::check_pass`. -/
def check_pass (o : Opts) (pass : String) : Option String :=
  check_pass_aux o.sha_pass o.password pass

/-! ### `Opts::setup` -/

/-- The external collaborators `setup` calls, modelled as oracles:
`parseRemote` is `str::parse::<SocketAddr>` on `remote_addr`,
`resolverOk` is whether `Resolver::from_system_conf()` succeeds, and
`lookup` is `Resolver::lookup_ip` on the (trailing-dot normalized)
hostname, yielding the candidate list in iteration order, or `none` when
the lookup errs. -/
structure Env where
  parseRemote : String → Option SocketAddr
  resolverOk : Bool
  lookup : String → Option (List IpAddr)

/-- Outcome of `Opts::setup`: normal return, a `panic!`/failed `unwrap()`
with its message, or non-termination of the candidate-selection loop. -/
inductive SetupResult where
  | ok (o : Opts) : SetupResult
  | fatal (msg : String) : SetupResult
  | diverge : SetupResult
deriving Repr

/-- The proxy-mode selection loop of `Opts::setup`, lines 78–85:

    while let Some(ip) = response.iter().next() {
        if ip.is_ipv4() { self.back_addr.replace(...); break; }
        else if self.back_addr.is_none() { self.back_addr.replace(...); }
    }

Each evaluation of the loop condition builds a FRESH iterator with
`response.iter()` and takes its first element, so every iteration
examines `candidates.head?`, never advancing. `fuel` counts loop
iterations; `none` means the fuel was exhausted (the loop still
running). -/
def selectAddr (fuel : Nat) (candidates : List IpAddr)
    (back : Option SocketAddr) : Option (Option SocketAddr) :=
  match fuel with
  | 0 => none
  | fuel + 1 =>
    match candidates.head? with
    | none => some back
    | some ip =>
      if ip.is_ipv4 then some (some (SocketAddr.new ip 443))
      else if back.isNone then
        selectAddr fuel candidates (some (SocketAddr.new ip 443))
      else selectAddr fuel candidates back

/-- The common tail of `setup` (lines 92–100): derive the
family-matching unspecified placeholder from `back_addr` (v4 `0.0.0.0:0`
or v6 `[::]:0`), set the two durations from the configured second
counts, and run `digest_pass`. -/
def finishSetup (o : Opts) : SetupResult :=
  match o.back_addr with
  | none => .fatal "called Option unwrap on a None value"
  | some back =>
    let empty_addr :=
      if back.is_ipv4 then SocketAddr.new (IpAddr.v4 0) 0
      else SocketAddr.new (IpAddr.v6 0) 0
    .ok (digest_pass { o with
      empty_addr := some empty_addr,
      dns_cache_duration := o.dns_cache_time,
      idle_duration := o.idle_timeout })

/-- Rust `hostname.ends_with(".")`: modelled on the character list (the
core-library `String.endsWith` is an external function that does not
reduce; for a one-character pattern the check is that the last character
is a dot). -/
def endsWithDot (s : String) : Bool :=
  match s.data.getLast? with
  | some c => c == '.'
  | none => false

/-- Rust `Opts::setup`. Server mode: require cert and key, parse `remote_addr`
as the backend. Proxy mode: require a hostname, normalize it with a
trailing dot, look it up, and run the selection loop starting from the
current `back_addr`; an empty final `back_addr` is fatal. Both modes end
in `finishSetup`. -/
def setup (env : Env) (fuel : Nat) (o : Opts) : SetupResult :=
  if o.mode == "server" then
    if o.cert.isNone || o.key.isNone then
      .fatal "server mode require both cert and key file"
    else
      match env.parseRemote o.remote_addr with
      | none => .fatal "invalid socket address syntax"
      | some back_addr => finishSetup { o with back_addr := some back_addr }
  else
    match o.hostname with
    | none => .fatal "proxy mode require hostname"
    | some h =>
      if !env.resolverOk then .fatal "resolver from system conf failed"
      else
        match env.lookup (if endsWithDot h then h else h ++ ".") with
        | none => .fatal "lookup ip failed"
        | some candidates =>
          match selectAddr fuel candidates o.back_addr with
          | none => .diverge
          | some back =>
            if back.isNone then
              .fatal ("resolve host " ++ (if endsWithDot h then h else h ++ ".") ++ " failed")
            else finishSetup { o with back_addr := back }

/-- Fields of `Opts` other than the DNS cache, as a tuple, to state frame
conditions. -/
def nonCacheFields (o : Opts) :=
  (o.cert, o.key, o.log_file, o.local_addr, o.remote_addr, o.password,
   o.log_level, o.dns_cache_time, o.marker, o.mode, o.hostname,
   o.idle_timeout, o.dns_cache_duration, o.sha_pass, o.pass_len,
   o.back_addr, o.udp_header_len, o.empty_addr, o.idle_duration)

/-! ### Concrete configurations used to instantiate the claims -/

/-- A server-mode configuration as the CLI defaults would produce it
(password list `["a"]`), before `setup`. -/
def optsServer : Opts :=
  { cert := some "cert.pem", key := some "key.pem", log_file := none,
    local_addr := "0.0.0.0:443", remote_addr := "127.0.0.1:80",
    password := ["a"], log_level := 2, dns_cache_time := 300, marker := 255,
    mode := "server", hostname := none, idle_timeout := 300,
    dns_cache_duration := 0, sha_pass := [], pass_len := 0,
    back_addr := none, dns_cache := [], udp_header_len := 0,
    empty_addr := none, idle_duration := 0 }

/-- The same configuration with the certificate path omitted. -/
def optsServerNoCert : Opts := { optsServer with cert := none }

/-- A proxy-mode configuration, before `setup`. -/
def optsProxy : Opts :=
  { optsServer with mode := "proxy", hostname := some "example.com" }

/-- The address `127.0.0.1:80`, the parse of the default `remote_addr`. -/
def addr4 : SocketAddr := SocketAddr.new (IpAddr.v4 2130706433) 80

/-- A concrete IPv4 candidate (`1.2.3.4`). -/
def cand4 : IpAddr := IpAddr.v4 16909060

/-- A concrete IPv6 candidate (`::1`). -/
def cand6 : IpAddr := IpAddr.v6 1

/-- Oracle environment whose lookup yields an IPv6 candidate first, then
an IPv4 one. -/
def envV6First : Env :=
  { parseRemote := fun _ => some addr4, resolverOk := true,
    lookup := fun _ => some [cand6, cand4] }

/-- Oracle environment whose lookup yields the IPv4 candidate first. -/
def envV4First : Env := { envV6First with lookup := fun _ => some [cand4, cand6] }

/-- Oracle environment whose lookup yields only IPv6 candidates. -/
def envV6Only : Env := { envV6First with lookup := fun _ => some [cand6] }

/-- Oracle environment whose lookup yields no candidates. -/
def envEmptyLookup : Env := { envV6First with lookup := fun _ => some [] }

/-- A post-setup server state with cache TTL 300 (what `setup` derives
from the default `dns_cache_time`). -/
def optsTtl300 : Opts := { optsServer with dns_cache_duration := 300 }

/-- A state whose configured cache TTL is 0 (`--dns-cache-time 0`), after
`setup` has copied it into `dns_cache_duration`. -/
def optsTtl0 : Opts := { optsServer with dns_cache_duration := 0, dns_cache_time := 0 }

/-- A state holding a cache entry for `"a.com"` that expires at instant 5. -/
def optsExpired : Opts :=
  { optsTtl300 with dns_cache := [("a.com", ⟨IpAddr.v4 7, 5⟩)] }

/-! ### Validation of the SHA-224 embedding against FIPS test vectors -/

theorem sha224_vector_abc :
    sha224_hex "abc" = "23097d223405d8228642a477bda255b32aadbce4bda0b3f7e36c9da7" := by
  decide

theorem sha224_vector_empty :
    sha224_hex "" = "d14a028c2a3a2bc9476102bb288234c415a2b01f828ea62ac5b3e42f" := by
  decide

/-! ### Association-list cache lemmas -/

theorem cacheGet_cons (k : String) (v : DnsEntry) (l : DnsCache) (d : String) :
    cacheGet ((k, v) :: l) d = if k = d then some v else cacheGet l d := by
  by_cases h : k = d <;> simp [cacheGet, List.find?_cons, h]

theorem cacheRemove_cons (k : String) (v : DnsEntry) (l : DnsCache) (d : String) :
    cacheRemove ((k, v) :: l) d =
      if k = d then cacheRemove l d else (k, v) :: cacheRemove l d := by
  by_cases h : k = d <;> simp [cacheRemove, List.filter_cons, h]

theorem cacheGet_cacheRemove_self (c : DnsCache) (d : String) :
    cacheGet (cacheRemove c d) d = none := by
  induction c with
  | nil => rfl
  | cons p rest ih =>
    obtain ⟨k, v⟩ := p
    rw [cacheRemove_cons]
    by_cases h : k = d
    · simpa [h] using ih
    · rw [if_neg h, cacheGet_cons, if_neg h]
      exact ih

theorem cacheGet_cacheRemove_other (c : DnsCache) (d d' : String) (hne : d' ≠ d) :
    cacheGet (cacheRemove c d) d' = cacheGet c d' := by
  induction c with
  | nil => rfl
  | cons p rest ih =>
    obtain ⟨k, v⟩ := p
    rw [cacheRemove_cons]
    by_cases h : k = d
    · have hk : k ≠ d' := fun hk' => hne (by rw [← hk', h])
      rw [if_pos h, cacheGet_cons, if_neg hk]
      exact ih
    · rw [if_neg h, cacheGet_cons, cacheGet_cons]
      by_cases h' : k = d'
      · rw [if_pos h', if_pos h']
      · rw [if_neg h', if_neg h']
        exact ih

theorem cacheGet_cacheInsert_self (c : DnsCache) (d : String) (e : DnsEntry) :
    cacheGet (cacheInsert c d e) d = some e := by
  rw [cacheInsert, cacheGet_cons, if_pos rfl]

theorem cacheGet_cacheInsert_other (c : DnsCache) (d d' : String) (e : DnsEntry)
    (hne : d' ≠ d) : cacheGet (cacheInsert c d e) d' = cacheGet c d' := by
  rw [cacheInsert, cacheGet_cons, if_neg (fun h => hne h.symm)]
  exact cacheGet_cacheRemove_other c d d' hne

theorem countKey_cons (k : String) (v : DnsEntry) (l : DnsCache) (d : String) :
    countKey ((k, v) :: l) d = (if k = d then 1 else 0) + countKey l d := by
  by_cases h : k = d <;> simp [countKey, List.filter_cons, h, Nat.add_comm]

theorem countKey_cacheRemove_self (c : DnsCache) (d : String) :
    countKey (cacheRemove c d) d = 0 := by
  induction c with
  | nil => rfl
  | cons p rest ih =>
    obtain ⟨k, v⟩ := p
    rw [cacheRemove_cons]
    by_cases h : k = d
    · simpa [h] using ih
    · rw [if_neg h, countKey_cons, if_neg h]
      simpa using ih

theorem countKey_cacheInsert_self (c : DnsCache) (d : String) (e : DnsEntry) :
    countKey (cacheInsert c d e) d = 1 := by
  rw [cacheInsert, countKey_cons, if_pos rfl, countKey_cacheRemove_self]

/-! ### Selection-loop lemmas -/

theorem selectAddr_stuck (ip : IpAddr) (rest : List IpAddr)
    (hip : ip.is_ipv4 = false) :
    ∀ fuel back, back.isSome = true → selectAddr fuel (ip :: rest) back = none := by
  intro fuel
  induction fuel with
  | zero => intro back _; rfl
  | succ n ih =>
    intro back hb
    have hnone : back.isNone = false := by
      cases back with
      | none => cases hb
      | some b => rfl
    simp only [selectAddr, List.head?, hip, hnone, Bool.false_eq_true, if_false]
    exact ih back hb

theorem selectAddr_diverge (ip : IpAddr) (rest : List IpAddr)
    (hip : ip.is_ipv4 = false) :
    ∀ fuel, selectAddr fuel (ip :: rest) none = none := by
  intro fuel
  cases fuel with
  | zero => rfl
  | succ n =>
    simp only [selectAddr, List.head?, hip, Option.isNone_none,
      Bool.false_eq_true, if_false, if_true]
    exact selectAddr_stuck ip rest hip n _ rfl

theorem selectAddr_v4_head (ip : IpAddr) (rest : List IpAddr)
    (hip : ip.is_ipv4 = true) (fuel : Nat) (back : Option SocketAddr) :
    selectAddr (fuel + 1) (ip :: rest) back = some (some (SocketAddr.new ip 443)) := by
  simp [selectAddr, List.head?, hip]

/-! ### `digest_pass`, `finishSetup` and `setup` structural lemmas -/

theorem digest_pass_sha_pass (o : Opts) :
    (digest_pass o).sha_pass = o.password.map sha224_hex := rfl

theorem digest_pass_password (o : Opts) :
    (digest_pass o).password = o.password := rfl

theorem digest_pass_back_addr (o : Opts) :
    (digest_pass o).back_addr = o.back_addr := rfl

theorem finishSetup_ok_inv (o₁ o' : Opts) (h : finishSetup o₁ = .ok o') :
    ∃ b : SocketAddr, o₁.back_addr = some b ∧
      o'.back_addr = some b ∧
      o'.empty_addr = some (if b.is_ipv4 then SocketAddr.new (IpAddr.v4 0) 0
                            else SocketAddr.new (IpAddr.v6 0) 0) ∧
      o'.password = o₁.password ∧
      o'.sha_pass = o₁.password.map sha224_hex ∧
      o'.pass_len = (o₁.password.map sha224_hex).foldl (fun _ d => d.length) o₁.pass_len ∧
      o'.dns_cache_duration = o₁.dns_cache_time := by
  unfold finishSetup at h
  cases hb : o₁.back_addr with
  | none => rw [hb] at h; cases h
  | some b =>
    rw [hb] at h
    simp only [SetupResult.ok.injEq] at h
    refine ⟨b, rfl, ?_, ?_, ?_, ?_, ?_, ?_⟩ <;> rw [← h] <;> rfl

theorem setup_ok_inv (env : Env) (fuel : Nat) (o o' : Opts)
    (h : setup env fuel o = .ok o') :
    ∃ b : SocketAddr, o'.back_addr = some b ∧
      o'.empty_addr = some (if b.is_ipv4 then SocketAddr.new (IpAddr.v4 0) 0
                            else SocketAddr.new (IpAddr.v6 0) 0) ∧
      o'.password = o.password ∧
      o'.sha_pass = o.password.map sha224_hex ∧
      o'.pass_len = (o.password.map sha224_hex).foldl (fun _ d => d.length) o.pass_len ∧
      o'.dns_cache_duration = o.dns_cache_time := by
  unfold setup at h
  by_cases hm : (o.mode == "server") = true
  · rw [if_pos hm] at h
    by_cases hck : (o.cert.isNone || o.key.isNone) = true
    · rw [if_pos hck] at h; cases h
    · rw [if_neg hck] at h
      cases hp : env.parseRemote o.remote_addr with
      | none => rw [hp] at h; cases h
      | some ba =>
        rw [hp] at h
        obtain ⟨b, _, h2, h3, h4, h5, h6, h7⟩ := finishSetup_ok_inv _ _ h
        exact ⟨b, h2, h3, h4, h5, h6, h7⟩
  · rw [if_neg hm] at h
    cases hh : o.hostname with
    | none => rw [hh] at h; cases h
    | some host =>
      rw [hh] at h
      dsimp only at h
      by_cases hro : (!env.resolverOk) = true
      · rw [if_pos hro] at h; cases h
      · rw [if_neg hro] at h
        cases hl : env.lookup (if endsWithDot host then host else host ++ ".") with
        | none => rw [hl] at h; cases h
        | some candidates =>
          rw [hl] at h
          dsimp only at h
          cases hs : selectAddr fuel candidates o.back_addr with
          | none => rw [hs] at h; cases h
          | some back =>
            rw [hs] at h
            dsimp only at h
            by_cases hbn : back.isNone = true
            · rw [if_pos hbn] at h; cases h
            · rw [if_neg hbn] at h
              obtain ⟨b, _, h2, h3, h4, h5, h6, h7⟩ := finishSetup_ok_inv _ _ h
              exact ⟨b, h2, h3, h4, h5, h6, h7⟩

/-! ### Digest-store lemmas -/

theorem check_pass_aux_map (f : String → String) (ps : List String) (p : String)
    (hp : p ∈ ps) (hinj : ∀ q ∈ ps, f q = f p → q = p) :
    check_pass_aux (ps.map f) ps (f p) = some p := by
  induction ps with
  | nil => cases hp
  | cons q rest ih =>
    rw [List.map_cons]
    show (if f q == f p then some q else check_pass_aux (rest.map f) rest (f p)) = some p
    by_cases h : f q = f p
    · have hq : q = p := hinj q (List.mem_cons_self q rest) h
      simp [h, hq]
    · have hb : (f q == f p) = false := by
        simpa using h
      rw [hb, if_neg (by simp)]
      have hqp : q ≠ p := fun e => h (by rw [e])
      have hp' : p ∈ rest := by
        cases hp with
        | head => exact absurd rfl hqp
        | tail _ hm => exact hm
      exact ih hp' (fun r hr he => hinj r (List.mem_cons_of_mem _ hr) he)

theorem foldl_length_const (ds : List String) (init n : Nat)
    (hall : ∀ d ∈ ds, d.length = n) (hne : ds ≠ []) :
    ds.foldl (fun _ d => d.length) init = n := by
  induction ds generalizing init with
  | nil => exact absurd rfl hne
  | cons d rest ih =>
    rw [List.foldl_cons]
    rcases eq_or_ne rest [] with hr | hr
    · subst hr
      simpa using hall d (List.mem_cons_self d [])
    · exact ih _ (fun x hx => hall x (List.mem_cons_of_mem _ hx)) hr

/-! ### Digest length lemmas: `sha224_hex` always yields 56 characters -/

theorem toBytesBE_length (k : Nat) : ∀ n, (toBytesBE k n).length = k := by
  induction k with
  | zero => intro n; rfl
  | succ k ih => intro n; simp [toBytesBE, ih]

theorem compressStep_length (st : List Nat) (kw : Nat) :
    (compressStep st kw).length = st.length := by
  unfold compressStep
  split
  · rfl
  · rfl

theorem foldl_compressStep_length (kws : List Nat) :
    ∀ hs : List Nat, (kws.foldl compressStep hs).length = hs.length := by
  induction kws with
  | nil => intro hs; rfl
  | cons kw rest ih =>
    intro hs
    rw [List.foldl_cons, ih, compressStep_length]

theorem processBlock_length (hs block : List Nat) :
    (processBlock hs block).length = hs.length := by
  unfold processBlock
  rw [List.length_zipWith, foldl_compressStep_length]
  exact Nat.min_self _

theorem foldl_processBlock_length (blocks : List (List Nat)) :
    ∀ hs : List Nat, (blocks.foldl processBlock hs).length = hs.length := by
  induction blocks with
  | nil => intro hs; rfl
  | cons b rest ih =>
    intro hs
    rw [List.foldl_cons, ih, processBlock_length]

theorem foldr_toBytes_length (l : List Nat) :
    (l.foldr (fun wi acc => toBytesBE 4 wi ++ acc) []).length = 4 * l.length := by
  induction l with
  | nil => rfl
  | cons x xs ih =>
    rw [List.foldr_cons, List.length_append, toBytesBE_length, ih,
      List.length_cons]
    omega

theorem sha224Bytes_length (msg : List Nat) : (sha224Bytes msg).length = 28 := by
  unfold sha224Bytes
  have hfin :
      ((chunksAux (padMessage msg).length (padMessage msg)).foldl
        processBlock sha224IV).length = 8 := by
    rw [foldl_processBlock_length]
    rfl
  rw [foldr_toBytes_length, List.length_take, hfin]
  decide

theorem bytesToHex_length (bs : List Nat) : (bytesToHex bs).length = 2 * bs.length := by
  show (bs.foldr (fun b acc => byteToHex b ++ acc) []).length = 2 * bs.length
  induction bs with
  | nil => rfl
  | cons b rest ih =>
    rw [List.foldr_cons, List.length_append, ih, List.length_cons]
    show 2 + 2 * rest.length = 2 * (rest.length + 1)
    omega

theorem sha224_hex_length (s : String) : (sha224_hex s).length = 56 := by
  unfold sha224_hex
  rw [bytesToHex_length, sha224Bytes_length]

/-! ### Shape of `setup` in proxy mode -/

theorem selectAddr_nil (fuel : Nat) (back : Option SocketAddr) :
    selectAddr (fuel + 1) [] back = some back := rfl

theorem setup_proxy_shape (env : Env) (fuel : Nat) (o : Opts) (host : String)
    (candidates : List IpAddr)
    (hmode : (o.mode == "server") = false) (hh : o.hostname = some host)
    (hro : env.resolverOk = true)
    (hl : env.lookup (if endsWithDot host then host else host ++ ".") = some candidates) :
    setup env fuel o =
      match selectAddr fuel candidates o.back_addr with
      | none => SetupResult.diverge
      | some back =>
        if back.isNone then
          SetupResult.fatal ("resolve host " ++
            (if endsWithDot host then host else host ++ ".") ++ " failed")
        else finishSetup { o with back_addr := back } := by
  unfold setup
  rw [hmode]
  simp only [Bool.false_eq_true, if_false]
  rw [hh]
  dsimp only
  rw [hro]
  simp only [Bool.not_true, Bool.false_eq_true, if_false]
  rw [hl]

/-- Rust `query_dns` on a domain with no cache entry yields nothing. -/
theorem query_dns_none_of_absent (o : Opts) (now : Nat) (domain : String)
    (h : cacheGet o.dns_cache domain = none) :
    (query_dns o now domain).fst = none := by
  unfold query_dns
  rw [h]

/-! ### Claims -/

/-- C1: the claim is the spec's intended selection policy (first IPv4,
port 443, regardless of candidate order), but the code's loop condition
re-creates the resolver iterator each test, so only the first candidate
is ever examined: with the IPv6 candidate first, `setup` never terminates
(first conjunct, for every fuel bound), while with the IPv4 candidate
first it does pick that IPv4 at port 443 (second conjunct). -/
theorem c1_selection_depends_on_order :
    (∀ fuel, setup envV6First fuel optsProxy = SetupResult.diverge) ∧
    (∃ o', setup envV4First 1 optsProxy = SetupResult.ok o' ∧
      o'.back_addr = some (SocketAddr.new cand4 443)) := by
  constructor
  · intro fuel
    rw [setup_proxy_shape envV6First fuel optsProxy "example.com" [cand6, cand4]
      (by decide) rfl rfl rfl]
    rw [show optsProxy.back_addr = none from rfl]
    rw [selectAddr_diverge cand6 [cand4] rfl fuel]
  · rw [setup_proxy_shape envV4First 1 optsProxy "example.com" [cand4, cand6]
      (by decide) rfl rfl rfl]
    exact ⟨_, rfl, rfl⟩

/-- C2: the claim says `setup` terminates on every finite candidate list
(completing even when the first candidate is IPv6-only, and failing
fatally on an empty list). The empty-list half is true (second conjunct),
but with a non-empty all-IPv6 candidate list the selection loop never
terminates (first conjunct, for every fuel bound), refuting termination. -/
theorem c2_setup_termination :
    (∀ fuel, setup envV6Only fuel optsProxy = SetupResult.diverge) ∧
    (∀ fuel, setup envEmptyLookup (fuel + 1) optsProxy =
      SetupResult.fatal "resolve host example.com. failed") := by
  constructor
  · intro fuel
    rw [setup_proxy_shape envV6Only fuel optsProxy "example.com" [cand6]
      (by decide) rfl rfl rfl]
    rw [show optsProxy.back_addr = none from rfl]
    rw [selectAddr_diverge cand6 [] rfl fuel]
  · intro fuel
    rw [setup_proxy_shape envEmptyLookup (fuel + 1) optsProxy "example.com" []
      (by decide) rfl rfl rfl]
    rw [show optsProxy.back_addr = none from rfl, selectAddr_nil fuel none]
    rfl

/-- C3: after `setup` has built the digest store, `check_pass` applied to
the SHA-224 hex digest of any configured password returns that plaintext
(assuming, as the one-way-digest design intends, that no other configured
password collides with it under SHA-224). -/
theorem c3_check_pass_roundtrip (env : Env) (fuel : Nat) (o : Opts) (p : String)
    (hp : p ∈ o.password)
    (hinj : ∀ q ∈ o.password, sha224_hex q = sha224_hex p → q = p) :
    match setup env fuel o with
    | .ok o' => check_pass o' (sha224_hex p) = some p
    | _ => True := by
  cases hok : setup env fuel o with
  | ok o' =>
    obtain ⟨b, _, _, hpw, hsha, _, _⟩ := setup_ok_inv env fuel o o' hok
    show check_pass o' (sha224_hex p) = some p
    unfold check_pass
    rw [hsha, hpw]
    exact check_pass_aux_map sha224_hex o.password p hp hinj
  | fatal m => trivial
  | diverge => trivial

/-- C3 witness: the configured password `"a"` of the concrete server
setup round-trips through its digest. -/
theorem c3_witness :
    match setup envV6First 1 optsServer with
    | .ok o' => check_pass o' (sha224_hex "a") = some "a"
    | _ => True :=
  c3_check_pass_roundtrip envV6First 1 optsServer "a" (by decide)
    (fun q hq _ => by simpa [optsServer] using hq)

/-- C4: `query_dns` never returns an address whose recorded expiry has
passed at the observed instant (first conjunct); an expired entry is
removed and stays absent, so the query and any subsequent query with no
intervening update return nothing (second conjunct). -/
theorem c4_query_dns_no_stale (o : Opts) (now : Nat) (domain : String) :
    (∀ a, (query_dns o now domain).fst = some a →
      ∃ e, cacheGet o.dns_cache domain = some e ∧ e.address = a ∧
        now < e.expired_time) ∧
    (∀ e, cacheGet o.dns_cache domain = some e → e.expired_time ≤ now →
      (query_dns o now domain).fst = none ∧
      cacheGet (query_dns o now domain).snd.dns_cache domain = none ∧
      ∀ now2, (query_dns (query_dns o now domain).snd now2 domain).fst = none) := by
  constructor
  · intro a ha
    unfold query_dns at ha
    cases hg : cacheGet o.dns_cache domain with
    | none => rw [hg] at ha; cases ha
    | some e =>
      rw [hg] at ha
      dsimp only at ha
      by_cases ht : e.expired_time > now
      · rw [if_pos ht] at ha
        exact ⟨e, rfl, Option.some.inj ha, ht⟩
      · rw [if_neg ht] at ha
        cases ha
  · intro e hg hle
    have hnotgt : ¬(e.expired_time > now) := not_lt.mpr hle
    have hq : query_dns o now domain =
        (none, { o with dns_cache := cacheRemove o.dns_cache domain }) := by
      unfold query_dns
      rw [hg]
      dsimp only
      rw [if_neg hnotgt]
    refine ⟨?_, ?_, ?_⟩
    · rw [hq]
    · rw [hq]
      exact cacheGet_cacheRemove_self o.dns_cache domain
    · intro now2
      apply query_dns_none_of_absent
      rw [hq]
      exact cacheGet_cacheRemove_self o.dns_cache domain

/-- C4 witness: an entry for `"a.com"` that expired at instant 5, queried
at instant 5, yields nothing, is evicted, and a later query at instant 6
still yields nothing. -/
theorem c4_witness :
    (query_dns optsExpired 5 "a.com").fst = none ∧
    cacheGet (query_dns optsExpired 5 "a.com").snd.dns_cache "a.com" = none ∧
    (query_dns (query_dns optsExpired 5 "a.com").snd 6 "a.com").fst = none := by
  have h := (c4_query_dns_no_stale optsExpired 5 "a.com").2
    ⟨IpAddr.v4 7, 5⟩ (by decide) (by decide)
  exact ⟨h.1, h.2.1, h.2.2 6⟩

/-- C5: server-mode setup with both cert and key present and a parseable
literal remote address completes with that parsed address as the backend
(first conjunct); omitting either path is a fatal configuration error
(second conjunct). -/
theorem c5_server_setup (env : Env) (fuel : Nat) (o : Opts) (a : SocketAddr) :
    (o.mode = "server" → o.cert.isSome = true → o.key.isSome = true →
      env.parseRemote o.remote_addr = some a →
      ∃ o', setup env fuel o = SetupResult.ok o' ∧ o'.back_addr = some a) ∧
    (o.mode = "server" → (o.cert.isNone = true ∨ o.key.isNone = true) →
      setup env fuel o =
        SetupResult.fatal "server mode require both cert and key file") := by
  constructor
  · intro hm hc hk hp
    have hmb : (o.mode == "server") = true := by simp [hm]
    have hcn : o.cert.isNone = false := by
      cases hcert : o.cert with
      | none => rw [hcert] at hc; cases hc
      | some c => rfl
    have hkn : o.key.isNone = false := by
      cases hkey : o.key with
      | none => rw [hkey] at hk; cases hk
      | some c => rfl
    unfold setup
    simp only [hmb, hcn, hkn, hp, Bool.or_self, Bool.false_eq_true, if_false, if_true]
    exact ⟨_, rfl, rfl⟩
  · intro hm hck
    have hmb : (o.mode == "server") = true := by simp [hm]
    have horb : (o.cert.isNone || o.key.isNone) = true := by
      rcases hck with h | h <;> simp [h]
    unfold setup
    simp only [hmb, horb, if_true]

/-- C5 witness: the concrete server configuration succeeds with the
parsed `127.0.0.1:80`, and the same configuration without a certificate
aborts fatally. -/
theorem c5_witness :
    (∃ o', setup envV6First 1 optsServer = SetupResult.ok o' ∧
      o'.back_addr = some addr4) ∧
    setup envV6First 1 optsServerNoCert =
      SetupResult.fatal "server mode require both cert and key file" :=
  ⟨(c5_server_setup envV6First 1 optsServer addr4).1 rfl rfl rfl rfl,
   (c5_server_setup envV6First 1 optsServerNoCert addr4).2 rfl (Or.inl rfl)⟩

/-- C6 counterexample: the claim quantifies over every session state, but
with a configured cache TTL of 0 (`--dns-cache-time 0`, which `setup`
copies into the cache duration), `update_dns` then an immediate
`query_dns` at the same instant does NOT return the address: the entry's
expiry `now + 0` is not strictly greater than `now`, so the query misses
(and evicts). -/
theorem c6_counterexample :
    (query_dns (update_dns optsTtl0 10 "a.com" (IpAddr.v4 7)) 10 "a.com").fst ≠
      some (IpAddr.v4 7) := by
  decide

/-- C6 (amended): provided the configured cache TTL is positive,
`update_dns` followed immediately by `query_dns` for the same domain at
the same instant returns the just-stored address. -/
theorem c6_update_then_query (o : Opts) (now : Nat) (domain : String) (X : IpAddr)
    (h : 0 < o.dns_cache_duration) :
    (query_dns (update_dns o now domain X) now domain).fst = some X := by
  unfold query_dns update_dns
  dsimp only
  rw [cacheGet_cacheInsert_self]
  dsimp only
  rw [if_pos (Nat.lt_add_of_pos_right h)]

/-- C6 witness: with the default TTL of 300, the round trip succeeds. -/
theorem c6_witness :
    (query_dns (update_dns optsTtl300 10 "a.com" (IpAddr.v4 7)) 10 "a.com").fst =
      some (IpAddr.v4 7) :=
  c6_update_then_query optsTtl300 10 "a.com" (IpAddr.v4 7) (by decide)

/-- C7: two successive `update_dns` calls for the same domain leave
exactly one entry for it, holding the second address with expiry equal to
the second call's instant plus the configured cache TTL. -/
theorem c7_double_update (o : Opts) (n1 n2 : Nat) (d : String) (x1 x2 : IpAddr) :
    countKey (update_dns (update_dns o n1 d x1) n2 d x2).dns_cache d = 1 ∧
    cacheGet (update_dns (update_dns o n1 d x1) n2 d x2).dns_cache d =
      some ⟨x2, n2 + o.dns_cache_duration⟩ :=
  ⟨countKey_cacheInsert_self _ d _, cacheGet_cacheInsert_self _ d _⟩

/-- C8: after a setup whose configured password list is non-empty, every
stored digest has the same encoded length as the exposed `pass_len`
(and that common length is 56, the SHA-224 hex length). -/
theorem c8_digest_uniform_length (env : Env) (fuel : Nat) (o : Opts)
    (hne : o.password ≠ []) :
    match setup env fuel o with
    | .ok o' => (∀ dg ∈ o'.sha_pass, dg.length = o'.pass_len) ∧ o'.pass_len = 56
    | _ => True := by
  cases hok : setup env fuel o with
  | ok o' =>
    obtain ⟨b, _, _, hpw, hsha, hlen, _⟩ := setup_ok_inv env fuel o o' hok
    show (∀ dg ∈ o'.sha_pass, dg.length = o'.pass_len) ∧ o'.pass_len = 56
    have h56 : o'.pass_len = 56 := by
      rw [hlen]
      refine foldl_length_const _ _ _ (fun d hd => ?_) (by simpa using hne)
      obtain ⟨q, _, rfl⟩ := List.mem_map.mp hd
      exact sha224_hex_length q
    refine ⟨fun dg hdg => ?_, h56⟩
    rw [hsha] at hdg
    obtain ⟨q, _, rfl⟩ := List.mem_map.mp hdg
    rw [sha224_hex_length, h56]
  | fatal m => trivial
  | diverge => trivial

/-- C8 witness: the concrete server configuration has a non-empty
password list. -/
theorem c8_witness :
    match setup envV6First 1 optsServer with
    | .ok o' => (∀ dg ∈ o'.sha_pass, dg.length = o'.pass_len) ∧ o'.pass_len = 56
    | _ => True :=
  c8_digest_uniform_length envV6First 1 optsServer (by decide)

/-- C9: every successful setup (either mode) leaves a placeholder
unspecified address with port 0 whose family matches the backend
endpoint: the IPv4 all-zero address if the backend is IPv4, else the
IPv6 one. -/
theorem c9_placeholder_matches_backend (env : Env) (fuel : Nat) (o : Opts) :
    match setup env fuel o with
    | .ok o' => ∃ b e, o'.back_addr = some b ∧ o'.empty_addr = some e ∧
        e.port = 0 ∧ e.ip = (if b.is_ipv4 then IpAddr.v4 0 else IpAddr.v6 0) ∧
        e.is_ipv4 = b.is_ipv4
    | _ => True := by
  cases hok : setup env fuel o with
  | ok o' =>
    obtain ⟨b, hb, he, _⟩ := setup_ok_inv env fuel o o' hok
    refine ⟨b, _, hb, he, ?_, ?_, ?_⟩ <;>
      cases hb4 : b.is_ipv4 <;>
        simp [hb4, SocketAddr.is_ipv4, SocketAddr.new, IpAddr.is_ipv4]
  | fatal m => trivial
  | diverge => trivial

/-- C10: `update_dns` and `query_dns` on domain `d` leave the cache entry
of every other domain unchanged, and leave every non-cache field of the
session configuration unchanged. -/
theorem c10_frame (o : Opts) (now : Nat) (d d' : String) (X : IpAddr)
    (hne : d' ≠ d) :
    cacheGet (update_dns o now d X).dns_cache d' = cacheGet o.dns_cache d' ∧
    cacheGet (query_dns o now d).snd.dns_cache d' = cacheGet o.dns_cache d' ∧
    nonCacheFields (update_dns o now d X) = nonCacheFields o ∧
    nonCacheFields (query_dns o now d).snd = nonCacheFields o := by
  refine ⟨cacheGet_cacheInsert_other o.dns_cache d d' _ hne, ?_, rfl, ?_⟩
  · unfold query_dns
    cases hg : cacheGet o.dns_cache d with
    | none => rfl
    | some e =>
      dsimp only
      by_cases ht : e.expired_time > now
      · rw [if_pos ht]
      · rw [if_neg ht]
        exact cacheGet_cacheRemove_other o.dns_cache d d' hne
  · unfold query_dns
    cases hg : cacheGet o.dns_cache d with
    | none => rfl
    | some e =>
      dsimp only
      by_cases ht : e.expired_time > now
      · rw [if_pos ht]
      · rw [if_neg ht]
        rfl

/-- C10 witness: updating and querying `"a.com"` leaves `"b.com"` and the
non-cache fields untouched in the concrete state. -/
theorem c10_witness :
    cacheGet (update_dns optsExpired 5 "a.com" (IpAddr.v4 9)).dns_cache "b.com" =
      cacheGet optsExpired.dns_cache "b.com" ∧
    cacheGet (query_dns optsExpired 5 "a.com").snd.dns_cache "b.com" =
      cacheGet optsExpired.dns_cache "b.com" ∧
    nonCacheFields (update_dns optsExpired 5 "a.com" (IpAddr.v4 9)) =
      nonCacheFields optsExpired ∧
    nonCacheFields (query_dns optsExpired 5 "a.com").snd = nonCacheFields optsExpired :=
  c10_frame optsExpired 5 "a.com" "b.com" (IpAddr.v4 9) (by decide)

end TrojanRs
